import Mathlib

/-!
Verification development for `src/functions/gee_processing.py`.

The module under study manipulates opaque handles to remote images of the
Google Earth Engine (`ee`) API.  We embed an image, at the granularity the
claims need, as the ordered list of its bands; a band carries its name, the
value it holds at a fixed (arbitrary) pixel, and whether it has been cast
to float by `toFloat`.  Server-side band math (`image.expression`) is
embedded as a small expression language evaluated over the band list.
Remote operations that this repository never computes itself — loading a
public dataset by path (`ee.Image(path)`) and terrain slope in degrees
(`ee.Terrain.slope`) — are uninterpreted parameters collected in `GEEEnv`.
-/

/-- One band of an image: its name, its value at the fixed pixel, and
whether it was cast to float. -/
structure Band where
  name : String
  value : ℚ
  float : Bool
deriving DecidableEq

/-- An image is its ordered list of bands. -/
abbrev Image := List Band

/-- First band of `img` carrying name `n` (GEE selects by name). -/
def lookupBand (img : Image) (n : String) : Option Band :=
  img.find? (fun bd => bd.name = n)

/-- Value of the first band of `img` named `n`. -/
def lookupVal (img : Image) (n : String) : Option ℚ :=
  (lookupBand img n).map Band.value

/-- Embeds `image.select(names)`: the named bands, in the order of `names`;
a missing name is a server-side error. -/
def select (names : List String) (img : Image) : Option Image :=
  names.mapM (fun n => lookupBand img n)

/-- Embeds `image.rename(names)`: renames the bands positionally; a count
mismatch is a server-side error. -/
def rename (names : List String) (img : Image) : Option Image :=
  if names.length = img.length then
    some (List.zipWith (fun bd n => Band.mk n bd.value bd.float) img names)
  else none

/-- Embeds `image.addBands(oneBandImage, None, True)` — the only form of
`addBands` the source uses: overwrite mode with a single new band.  A band
of the same name is replaced in place; otherwise the band is appended. -/
def addBands (img : Image) (nb : Band) : Image :=
  if img.any (fun bd => bd.name = nb.name) then
    img.map (fun bd => if bd.name = nb.name then nb else bd)
  else img ++ [nb]

/-- Band-math expressions, the fragment used by the `image.expression`
strings of `add_indices`: band references `b(name)`, rational constants,
and the four arithmetic operators. -/
inductive Expr where
  | band : String → Expr
  | const : ℚ → Expr
  | add : Expr → Expr → Expr
  | sub : Expr → Expr → Expr
  | mul : Expr → Expr → Expr
  | div : Expr → Expr → Expr
deriving DecidableEq

/-- Server-side evaluation of an expression at the fixed pixel; a band
reference to an absent band is an error. -/
def Expr.eval (img : Image) : Expr → Option ℚ
  | .band n => lookupVal img n
  | .const q => some q
  | .add a b => do pure ((← Expr.eval img a) + (← Expr.eval img b))
  | .sub a b => do pure ((← Expr.eval img a) - (← Expr.eval img b))
  | .mul a b => do pure ((← Expr.eval img a) * (← Expr.eval img b))
  | .div a b => do pure ((← Expr.eval img a) / (← Expr.eval img b))

/-- Names of the bands an expression references. -/
def Expr.refs : Expr → List String
  | .band n => [n]
  | .const _ => []
  | .add a b | .sub a b | .mul a b | .div a b => a.refs ++ b.refs

/-- The NDVI expression string of the source:
`(b('NIR') - b('RED'))/(b('NIR') + b('RED'))`. -/
def ndvi_e : Expr :=
  .div (.sub (.band "NIR") (.band "RED")) (.add (.band "NIR") (.band "RED"))

/-- The EVI expression string of the source:
`2.5*((b('NIR') - b('RED'))/(b('NIR') + 6*b('RED') - 7.5*b('BLUE') + 1))`. -/
def evi_e : Expr :=
  .mul (.const 2.5)
    (.div (.sub (.band "NIR") (.band "RED"))
      (.add (.sub (.add (.band "NIR") (.mul (.const 6) (.band "RED")))
          (.mul (.const 7.5) (.band "BLUE")))
        (.const 1)))

/-- The NDMI expression string of the source, written there as
`(b('NIR') - b('RED'))/(b('NIR') + b('RED'))` — textually the same
formula the source uses for NDVI. -/
def ndmi_e : Expr :=
  .div (.sub (.band "NIR") (.band "RED")) (.add (.band "NIR") (.band "RED"))

/-- The SAVI expression string of the source:
`((b('NIR') - b('RED'))/(b('NIR') + b('RED') + 0.5))*(1.5)`. -/
def savi_e : Expr :=
  .mul (.div (.sub (.band "NIR") (.band "RED"))
      (.add (.add (.band "NIR") (.band "RED")) (.const 0.5)))
    (.const 1.5)

/-- The GCI expression string of the source:
`(b('NIR')/b('GREEN')) - 1`. -/
def gci_e : Expr :=
  .sub (.div (.band "NIR") (.band "GREEN")) (.const 1)

/-- The `indices` dict of `add_indices`, in its (insertion-preserving)
iteration order. -/
def indices : List (String × Expr) :=
  [("NDVI", ndvi_e), ("EVI", evi_e), ("NDMI", ndmi_e), ("SAVI", savi_e), ("GCI", gci_e)]

/-- One `image.expression(formula).toFloat().rename(name)` chain: the
resulting single float band, named `n`. -/
def indexBand (img : Image) (n : String) (e : Expr) : Option Band :=
  (e.eval img).map (fun v => Band.mk n v true)

/-- One iteration of the loop of `add_indices`:
`image = image.addBands(image.expression(formula).toFloat().rename(name), None, True)`. -/
def idxStep (acc : Image) (p : String × Expr) : Option Image :=
  (indexBand acc p.1 p.2).map (addBands acc)

/-- The `ori_names` list of `rename_bands`. -/
def ori_names : List String := ["SR_B1", "SR_B2", "SR_B3", "SR_B4", "ST_B6"]

/-- The `new_names` list of `rename_bands`. -/
def new_names : List String := ["BLUE", "GREEN", "RED", "NIR", "TEMPERATURE"]

/-- Embeds `rename_bands`: `image.select(ori_names).rename(new_names)`. -/
def rename_bands (img : Image) : Option Image :=
  (select ori_names img).bind (rename new_names)

/-- Embeds `add_indices`: the loop over the `indices` dict. -/
def add_indices (img : Image) : Option Image :=
  indices.foldlM idxStep img

/-- The remote operations the repository delegates wholesale: the pixel
value a public dataset (`ee.Image(path)`) holds at the fixed pixel, and
the pixel semantics of `ee.Terrain.slope` (slope in degrees) as a function
of the elevation band it is applied to. -/
structure GEEEnv where
  elev : String → ℚ
  slopeDeg : ℚ → ℚ

/-- A Python runtime error.  `unboundLocal` models an
`UnboundLocalError` (a local variable read before assignment);
`raised` models an exception raised with `raise`. -/
inductive PyError where
  | unboundLocal : String → PyError
  | raised : String → PyError
deriving DecidableEq

/-- The `match dem` statement of `add_dem`.  `none` is the wildcard case:
the source there evaluates `Exception("INVALID DEM, see the options in the
docstring")` but never raises it, so `dem_path` stays unassigned. -/
def demPath? (dem : String) : Option String :=
  match dem with
  | "SRTM_30m" => some "USGS/SRTMGL1_003"
  | "SRTM_90m" => some "CGIAR/SRTM90_V4"
  | "HydroSHED_15arc" => some "WWF/HydroSHEDS/15CONDEM"
  | "GTOPO_30arc" => some "USGS/GTOPO30"
  | _ => none

/-- Embeds `add_dem`.  In the wildcard case of the `match`, execution
reaches `ee.Image(dem_path)` with `dem_path` never assigned and dies with
an `UnboundLocalError` (the constructed `Exception` was not raised).
Otherwise `ee.Image(dem_path).rename("DEM")` is a single band named `DEM`
holding the dataset's value, added in overwrite mode; when `slope` is set,
`ee.Terrain.slope(dem).rename("SLOPE")` is added the same way. -/
def add_dem (env : GEEEnv) (img : Image) (slope : Bool := false)
    (dem : String := "SRTM_30m") : Except PyError Image :=
  match demPath? dem with
  | none => .error (.unboundLocal "dem_path")
  | some path =>
    let demBand : Band := Band.mk "DEM" (env.elev path) false
    let img2 := addBands img demBand
    if slope then
      .ok (addBands img2 (Band.mk "SLOPE" (env.slopeDeg demBand.value) false))
    else
      .ok img2

/-- The kinds of request the module sends to the remote API.  `getPixels`
stands for any request that would materialize pixel data locally; the
module never issues one. -/
inductive Op where
  | select : List String → Op
  | rename : List String → Op
  | expression : Expr → Op
  | toFloat : Op
  | addBands : Op
  | loadImage : String → Op
  | terrainSlope : Op
  | getPixels : Op
deriving DecidableEq

/-- The requests `rename_bands` composes, in source order:
`image.select(ori_names).rename(new_names)`. -/
def rename_bandsOps : List Op :=
  [.select ori_names, .rename new_names]

/-- The requests `add_indices` composes, in source order: for each index,
`image.expression(formula).toFloat().rename(name)` then `addBands`. -/
def addIndicesOps : List Op :=
  indices.flatMap (fun p => [.expression p.2, .toFloat, .rename [p.1], .addBands])

/-- The requests `add_dem` composes before returning or dying.  On an
invalid `dem` key nothing is sent: the `Exception(...)` call is a local
object construction and execution dies at the unbound `dem_path` read
before `ee.Image` is reached. -/
def addDemOps (slope : Bool) (dem : String) : List Op :=
  match demPath? dem with
  | none => []
  | some path =>
    [.loadImage path, .rename ["DEM"], .addBands] ++
      (if slope then [.terrainSlope, .rename ["SLOPE"], .addBands] else [])

/-- Request kinds enumerated by the specification sentence for the claim
on frame effects: band subsetting, renaming, server-side expression
evaluation and band addition.  This definition follows the spec's words,
to be compared with the traces computed from the source. -/
def claimedRequestKinds : Op → Bool
  | .select _ => true
  | .rename _ => true
  | .expression _ => true
  | .addBands => true
  | _ => false

/-- Request kinds the source actually composes: the claimed four plus
float conversion, public-dataset loading and terrain slope; never a
pixel-materializing request. -/
def codeRequestKinds : Op → Bool
  | .select _ => true
  | .rename _ => true
  | .expression _ => true
  | .addBands => true
  | .toFloat => true
  | .loadImage _ => true
  | .terrainSlope => true
  | .getPixels => false

/-- Helper predicate: every band of `img` named `s` equals `B`, and one
such band exists. -/
def AllEq (img : Image) (s : String) (B : Band) : Prop :=
  (img.any (fun bd => bd.name = s)) = true ∧ ∀ bd ∈ img, bd.name = s → bd = B

theorem lookupBand_append_left {img : Image} {n : String} {bd : Band}
    (ys : Image) (h : lookupBand img n = some bd) :
    lookupBand (img ++ ys) n = some bd := by
  unfold lookupBand at h ⊢
  rw [List.find?_append, h]
  rfl

theorem lookupVal_append_left {img : Image} {n : String} {v : ℚ}
    (ys : Image) (h : lookupVal img n = some v) :
    lookupVal (img ++ ys) n = some v := by
  unfold lookupVal at h ⊢
  cases hb : lookupBand img n with
  | none => rw [hb] at h; simp at h
  | some bd =>
    rw [hb] at h
    rw [lookupBand_append_left ys hb]
    exact h

theorem lookupBand_append_single_ne (img : Image) (nb : Band) {m : String}
    (h : m ≠ nb.name) : lookupBand (img ++ [nb]) m = lookupBand img m := by
  have hnm : ¬ nb.name = m := fun hx => h hx.symm
  unfold lookupBand
  rw [List.find?_append]
  have hone : List.find? (fun bd => bd.name = m) [nb] = none := by
    simp [List.find?, hnm]
  rw [hone, Option.or_none]

theorem replaceBand_lookup_ne (img : Image) (nb : Band) {m : String}
    (h : m ≠ nb.name) :
    lookupBand (img.map (fun bd => if bd.name = nb.name then nb else bd)) m =
      lookupBand img m := by
  unfold lookupBand
  rw [List.find?_map]
  have hpf : ((fun bd : Band => decide (bd.name = m)) ∘
      (fun bd => if bd.name = nb.name then nb else bd)) =
      fun bd : Band => decide (bd.name = m) := by
    funext bd
    by_cases hbd : bd.name = nb.name
    · have h1 : ¬ nb.name = m := fun hx => h hx.symm
      have h2 : ¬ bd.name = m := by rw [hbd]; exact h1
      simp [hbd, h1, h2]
    · simp [hbd]
  rw [hpf]
  cases hf : List.find? (fun bd : Band => decide (bd.name = m)) img with
  | none => rfl
  | some a =>
    have ham : a.name = m := by simpa using List.find?_some hf
    have han : ¬ a.name = nb.name := by rw [ham]; exact h
    simp [han]

theorem lookupBand_addBands_ne (img : Image) (nb : Band) {m : String}
    (h : m ≠ nb.name) : lookupBand (addBands img nb) m = lookupBand img m := by
  unfold addBands
  split
  · exact replaceBand_lookup_ne img nb h
  · exact lookupBand_append_single_ne img nb h

theorem lookupVal_addBands_ne (img : Image) (nb : Band) {m : String}
    (h : m ≠ nb.name) : lookupVal (addBands img nb) m = lookupVal img m := by
  unfold lookupVal
  rw [lookupBand_addBands_ne img nb h]

theorem lookupBand_addBands_self (img : Image) (nb : Band) :
    lookupBand (addBands img nb) nb.name = some nb := by
  unfold addBands
  split
  case isTrue hany =>
    unfold lookupBand
    rw [List.find?_map]
    have hpf : ((fun bd : Band => decide (bd.name = nb.name)) ∘
        (fun bd => if bd.name = nb.name then nb else bd)) =
        fun bd : Band => decide (bd.name = nb.name) := by
      funext bd
      by_cases hbd : bd.name = nb.name
      · simp [hbd]
      · simp [hbd]
    rw [hpf]
    have hsome : (List.find? (fun bd : Band => decide (bd.name = nb.name)) img).isSome := by
      rw [List.find?_isSome]
      simpa [List.any_eq_true] using hany
    cases hf : List.find? (fun bd : Band => decide (bd.name = nb.name)) img with
    | none => rw [hf] at hsome; simp at hsome
    | some a =>
      have ham : a.name = nb.name := by simpa using List.find?_some hf
      simp [ham]
  case isFalse hany =>
    unfold lookupBand
    rw [List.find?_append]
    have hleft : List.find? (fun bd : Band => decide (bd.name = nb.name)) img = none := by
      rw [List.find?_eq_none]
      intro x hx
      simp only [decide_eq_true_eq]
      intro hxn
      exact hany (List.any_eq_true.mpr ⟨x, hx, by simpa using hxn⟩)
    rw [hleft, Option.none_or]
    simp [List.find?]

theorem any_of_lookupBand_some {img : Image} {s : String} {B : Band}
    (h : lookupBand img s = some B) :
    (img.any (fun bd => bd.name = s)) = true := by
  rw [List.any_eq_true]
  have : (List.find? (fun bd : Band => decide (bd.name = s)) img).isSome := by
    unfold lookupBand at h
    rw [h]
    rfl
  obtain ⟨x, hx, hpx⟩ := List.find?_isSome.mp this
  exact ⟨x, hx, hpx⟩

theorem allEq_addBands_self (img : Image) (nb : Band) :
    AllEq (addBands img nb) nb.name nb := by
  constructor
  · exact any_of_lookupBand_some (lookupBand_addBands_self img nb)
  · unfold addBands
    split
    case isTrue hany =>
      intro bd hbd hname
      obtain ⟨a, _, rfl⟩ := List.mem_map.mp hbd
      by_cases hax : a.name = nb.name
      · rw [if_pos hax]
      · rw [if_neg hax] at hname ⊢
        exact absurd hname hax
    case isFalse hany =>
      intro bd hbd hname
      rcases List.mem_append.mp hbd with hin | hin
      · exact absurd (List.any_eq_true.mpr ⟨bd, hin, by simpa using hname⟩) hany
      · simpa using hin

theorem allEq_addBands_ne {img : Image} {s : String} {B : Band} (nb : Band)
    (h : s ≠ nb.name) (hA : AllEq img s B) : AllEq (addBands img nb) s B := by
  constructor
  · obtain ⟨x, hx, hpx⟩ := List.any_eq_true.mp hA.1
    unfold addBands
    split
    case isTrue hany =>
      rw [List.any_eq_true]
      have hxs : x.name = s := by simpa using hpx
      have hxn : ¬ x.name = nb.name := by rw [hxs]; exact h
      exact ⟨x, List.mem_map.mpr ⟨x, hx, by rw [if_neg hxn]⟩, hpx⟩
    case isFalse hany =>
      rw [List.any_eq_true]
      exact ⟨x, List.mem_append.mpr (Or.inl hx), hpx⟩
  · unfold addBands
    split
    case isTrue hany =>
      intro bd hbd hname
      obtain ⟨a, ha, rfl⟩ := List.mem_map.mp hbd
      by_cases hax : a.name = nb.name
      · rw [if_pos hax] at hname
        exact absurd hname.symm (fun hx => h hx)
      · rw [if_neg hax] at hname ⊢
        exact hA.2 a ha hname
    case isFalse hany =>
      intro bd hbd hname
      rcases List.mem_append.mp hbd with hin | hin
      · exact hA.2 bd hin hname
      · have : bd = nb := by simpa using hin
        rw [this] at hname
        exact absurd hname.symm (fun hx => h hx)

theorem addBands_eq_self {img : Image} {nb : Band}
    (hA : AllEq img nb.name nb) : addBands img nb = img := by
  unfold addBands
  rw [if_pos hA.1]
  have hmap : ∀ bd ∈ img, (if bd.name = nb.name then nb else bd) = bd := by
    intro bd hbd
    by_cases hx : bd.name = nb.name
    · rw [if_pos hx, (hA.2 bd hbd hx)]
    · rw [if_neg hx]
  rw [List.map_congr_left hmap]
  exact List.map_id img

theorem eval_congr {i j : Image} (e : Expr)
    (h : ∀ n ∈ e.refs, lookupVal i n = lookupVal j n) : e.eval i = e.eval j := by
  induction e with
  | band n => exact h n (by simp [Expr.refs])
  | const q => rfl
  | add a b iha ihb =>
    have ha := iha (fun n hn => h n (by simp [Expr.refs]; exact Or.inl hn))
    have hb := ihb (fun n hn => h n (by simp [Expr.refs]; exact Or.inr hn))
    simp only [Expr.eval, ha, hb]
  | sub a b iha ihb =>
    have ha := iha (fun n hn => h n (by simp [Expr.refs]; exact Or.inl hn))
    have hb := ihb (fun n hn => h n (by simp [Expr.refs]; exact Or.inr hn))
    simp only [Expr.eval, ha, hb]
  | mul a b iha ihb =>
    have ha := iha (fun n hn => h n (by simp [Expr.refs]; exact Or.inl hn))
    have hb := ihb (fun n hn => h n (by simp [Expr.refs]; exact Or.inr hn))
    simp only [Expr.eval, ha, hb]
  | div a b iha ihb =>
    have ha := iha (fun n hn => h n (by simp [Expr.refs]; exact Or.inl hn))
    have hb := ihb (fun n hn => h n (by simp [Expr.refs]; exact Or.inr hn))
    simp only [Expr.eval, ha, hb]

theorem idxStep_some {img i1 : Image} {p : String × Expr}
    (h : idxStep img p = some i1) :
    ∃ v : ℚ, p.2.eval img = some v ∧ i1 = addBands img (Band.mk p.1 v true) := by
  unfold idxStep indexBand at h
  cases hv : p.2.eval img with
  | none => rw [hv] at h; simp at h
  | some v =>
    rw [hv] at h
    simp only [Option.map_some'] at h
    exact ⟨v, rfl, (Option.some.inj h).symm⟩

theorem foldlM_lookup_frame :
    ∀ (ps : List (String × Expr)) (img res : Image),
      ps.foldlM idxStep img = some res →
      ∀ m : String, (∀ p ∈ ps, m ≠ p.1) →
        lookupBand res m = lookupBand img m := by
  intro ps
  induction ps with
  | nil =>
    intro img res h m _
    simp only [List.foldlM_nil] at h
    cases h
    rfl
  | cons p tl ih =>
    intro img res h m hm
    rw [List.foldlM_cons] at h
    cases hstep : idxStep img p with
    | none => rw [hstep] at h; simp at h
    | some i1 =>
      rw [hstep] at h
      simp only [Option.bind_eq_bind, Option.some_bind] at h
      obtain ⟨v, _, rfl⟩ := idxStep_some hstep
      have h1 := ih _ res h m (fun q hq => hm q (List.mem_cons_of_mem p hq))
      rw [h1]
      exact lookupBand_addBands_ne img (Band.mk p.1 v true)
        (hm p (List.mem_cons_self p tl))

theorem foldlM_allEq :
    ∀ (ps : List (String × Expr)) (img res : Image) (s : String) (B : Band),
      ps.foldlM idxStep img = some res →
      (∀ p ∈ ps, s ≠ p.1) → AllEq img s B → AllEq res s B := by
  intro ps
  induction ps with
  | nil =>
    intro img res s B h _ hA
    simp only [List.foldlM_nil] at h
    cases h
    exact hA
  | cons p tl ih =>
    intro img res s B h hs hA
    rw [List.foldlM_cons] at h
    cases hstep : idxStep img p with
    | none => rw [hstep] at h; simp at h
    | some i1 =>
      rw [hstep] at h
      simp only [Option.bind_eq_bind, Option.some_bind] at h
      obtain ⟨v, _, rfl⟩ := idxStep_some hstep
      refine ih _ res s B h (fun q hq => hs q (List.mem_cons_of_mem p hq)) ?_
      exact allEq_addBands_ne _ (hs p (List.mem_cons_self p tl)) hA

theorem foldlM_idxStep_idem :
    ∀ (ps : List (String × Expr)) (img res : Image),
      (∀ p ∈ ps, ∀ n ∈ p.2.refs, ∀ q ∈ ps, n ≠ q.1) →
      (ps.map Prod.fst).Nodup →
      ps.foldlM idxStep img = some res →
      ps.foldlM idxStep res = some res := by
  intro ps
  induction ps with
  | nil =>
    intro img res _ _ h
    simp only [List.foldlM_nil] at h ⊢
    cases h
    rfl
  | cons p tl ih =>
    intro img res hrefs hnd h
    rw [List.map_cons, List.nodup_cons] at hnd
    rw [List.foldlM_cons] at h
    cases hstep : idxStep img p with
    | none => rw [hstep] at h; simp at h
    | some i1 =>
      rw [hstep] at h
      simp only [Option.bind_eq_bind, Option.some_bind] at h
      obtain ⟨v, heval, hi1⟩ := idxStep_some hstep
      -- the re-run evaluates the same value on `res`
      have hlook : ∀ n ∈ p.2.refs, lookupVal res n = lookupVal img n := by
        intro n hn
        have hne : ∀ q ∈ p :: tl, n ≠ q.1 :=
          hrefs p (List.mem_cons_self p tl) n hn
        have h1 : lookupBand res n = lookupBand i1 n :=
          foldlM_lookup_frame tl i1 res h n
            (fun q hq => hne q (List.mem_cons_of_mem p hq))
        have h2 : lookupBand i1 n = lookupBand img n := by
          rw [hi1]
          exact lookupBand_addBands_ne img _ (hne p (List.mem_cons_self p tl))
        unfold lookupVal
        rw [h1, h2]
      have heval2 : p.2.eval res = some v := by
        rw [eval_congr p.2 hlook]
        exact heval
      -- `res` already carries the freshly written band unchanged
      have hAll : AllEq res p.1 (Band.mk p.1 v true) := by
        refine foldlM_allEq tl i1 res p.1 (Band.mk p.1 v true) h ?_ ?_
        · intro q hq hcontr
          exact hnd.1 (List.mem_map.mpr ⟨q, hq, hcontr.symm⟩)
        · rw [hi1]
          exact allEq_addBands_self img (Band.mk p.1 v true)
      have hadd : addBands res (Band.mk p.1 v true) = res :=
        addBands_eq_self hAll
      have hstep2 : idxStep res p = some res := by
        unfold idxStep indexBand
        rw [heval2]
        simp only [Option.map_some']
        rw [hadd]
      rw [List.foldlM_cons, hstep2]
      simp only [Option.bind_eq_bind, Option.some_bind]
      exact ih i1 res
        (fun q hq n hn r hr =>
          hrefs q (List.mem_cons_of_mem p hq) n hn r (List.mem_cons_of_mem p hr))
        hnd.2 h

theorem rename_bands_eval (img : Image) (b1 b2 b3 b4 b5 : Band)
    (h1 : lookupBand img "SR_B1" = some b1)
    (h2 : lookupBand img "SR_B2" = some b2)
    (h3 : lookupBand img "SR_B3" = some b3)
    (h4 : lookupBand img "SR_B4" = some b4)
    (h5 : lookupBand img "ST_B6" = some b5) :
    rename_bands img = some
      [Band.mk "BLUE" b1.value b1.float, Band.mk "GREEN" b2.value b2.float,
       Band.mk "RED" b3.value b3.float, Band.mk "NIR" b4.value b4.float,
       Band.mk "TEMPERATURE" b5.value b5.float] := by
  unfold rename_bands select ori_names
  simp only [List.mapM_cons, List.mapM_nil, h1, h2, h3, h4, h5,
    Option.bind_eq_bind, Option.some_bind, Option.pure_def]
  unfold rename new_names
  simp [List.zipWith]

theorem mapM_lookup_none {l : List String} {img : Image} {n : String}
    (hn : n ∈ l) (h : lookupBand img n = none) :
    l.mapM (fun s => lookupBand img s) = none := by
  induction l with
  | nil => cases hn
  | cons a tl ih =>
    rw [List.mapM_cons]
    rcases List.mem_cons.mp hn with rfl | htl
    · rw [h]
      rfl
    · cases ha : lookupBand img a with
      | none => rfl
      | some bd =>
        simp only [Option.bind_eq_bind, Option.some_bind, ih htl]
        rfl

/-- Claim C3: on an input containing the bands SR_B1, SR_B2, SR_B3, SR_B4
and ST_B6, `rename_bands` is a band-selection call followed by a rename
call and nothing else, and returns exactly those five bands, in that
order, renamed to BLUE, GREEN, RED, NIR and TEMPERATURE with their values
untouched. -/
theorem rename_bands_selects_and_renames (img : Image) (b1 b2 b3 b4 b5 : Band)
    (h1 : lookupBand img "SR_B1" = some b1)
    (h2 : lookupBand img "SR_B2" = some b2)
    (h3 : lookupBand img "SR_B3" = some b3)
    (h4 : lookupBand img "SR_B4" = some b4)
    (h5 : lookupBand img "ST_B6" = some b5) :
    (∀ j : Image, rename_bands j = (select ori_names j).bind (rename new_names)) ∧
    rename_bands img = some
      [Band.mk "BLUE" b1.value b1.float, Band.mk "GREEN" b2.value b2.float,
       Band.mk "RED" b3.value b3.float, Band.mk "NIR" b4.value b4.float,
       Band.mk "TEMPERATURE" b5.value b5.float] :=
  ⟨fun _ => rfl, rename_bands_eval img b1 b2 b3 b4 b5 h1 h2 h3 h4 h5⟩

/-- Claim C10: `rename_bands` keeps exactly the five selected bands — the
output's band names are precisely BLUE, GREEN, RED, NIR, TEMPERATURE, so
every further input band (an SR_B5, SR_B7, ...) is discarded — and on an
input lacking any of the five required bands the band selection fails. -/
theorem rename_bands_drops_other_bands (img : Image) (b1 b2 b3 b4 b5 : Band)
    (h1 : lookupBand img "SR_B1" = some b1)
    (h2 : lookupBand img "SR_B2" = some b2)
    (h3 : lookupBand img "SR_B3" = some b3)
    (h4 : lookupBand img "SR_B4" = some b4)
    (h5 : lookupBand img "ST_B6" = some b5) :
    (∃ res : Image, rename_bands img = some res ∧
      res.map Band.name = new_names ∧ res.length = 5) ∧
    (∀ (jmg : Image) (n : String), n ∈ ori_names → lookupBand jmg n = none →
      rename_bands jmg = none) := by
  constructor
  · refine ⟨_, rename_bands_eval img b1 b2 b3 b4 b5 h1 h2 h3 h4 h5, ?_, rfl⟩
    rfl
  · intro jmg n hn hnone
    unfold rename_bands select
    rw [mapM_lookup_none hn hnone]
    rfl

/-- A plain Landsat-style input carrying exactly the four spectral bands
the index formulas read. -/
def imgStd : Image :=
  [Band.mk "BLUE" 1 false, Band.mk "GREEN" 2 false,
   Band.mk "RED" 3 false, Band.mk "NIR" 5 false]

/-- The image `add_indices` returns on `imgStd`, with each index value
written as the arithmetic the expressions perform. -/
def imgStdRes : Image :=
  imgStd ++
    [Band.mk "NDVI" (((5 : ℚ) - 3) / (5 + 3)) true,
     Band.mk "EVI" ((2.5 : ℚ) * ((5 - 3) / (5 + 6 * 3 - 7.5 * 1 + 1))) true,
     Band.mk "NDMI" (((5 : ℚ) - 3) / (5 + 3)) true,
     Band.mk "SAVI" ((((5 : ℚ) - 3) / (5 + 3 + 0.5)) * 1.5) true,
     Band.mk "GCI" ((5 : ℚ) / 2 - 1) true]

/-- An input that already carries a band named NDVI next to the four
spectral bands. -/
def imgPre : Image := imgStd ++ [Band.mk "NDVI" 99 false]

/-- The image `add_indices` returns on `imgPre`: the input's NDVI band is
overwritten in place and only four bands are appended. -/
def imgPreRes : Image :=
  [Band.mk "BLUE" 1 false, Band.mk "GREEN" 2 false,
   Band.mk "RED" 3 false, Band.mk "NIR" 5 false,
   Band.mk "NDVI" (((5 : ℚ) - 3) / (5 + 3)) true,
   Band.mk "EVI" ((2.5 : ℚ) * ((5 - 3) / (5 + 6 * 3 - 7.5 * 1 + 1))) true,
   Band.mk "NDMI" (((5 : ℚ) - 3) / (5 + 3)) true,
   Band.mk "SAVI" ((((5 : ℚ) - 3) / (5 + 3 + 0.5)) * 1.5) true,
   Band.mk "GCI" ((5 : ℚ) / 2 - 1) true]

/-- Claim C1 counterexample: on an input whose bands include BLUE, GREEN,
RED and NIR but also a band named NDVI, `add_indices` does not return the
image with five additional bands and the other bands unaltered — the
overwrite flag makes it replace the input's NDVI band in place, so only
four bands are added and an input band is altered. -/
theorem add_indices_overwrites_preexisting_counterexample :
    add_indices imgPre = some imgPreRes ∧
    imgPre.length = 5 ∧ imgPreRes.length = 9 ∧
    lookupBand imgPre "NDVI" = some (Band.mk "NDVI" 99 false) ∧
    lookupBand imgPreRes "NDVI" =
      some (Band.mk "NDVI" (((5 : ℚ) - 3) / (5 + 3)) true) ∧
    Band.mk "NDVI" (((5 : ℚ) - 3) / (5 + 3)) true ≠ Band.mk "NDVI" 99 false := by
  refine ⟨rfl, rfl, rfl, rfl, rfl, ?_⟩
  intro h
  have := congrArg Band.float h
  simp at this

theorem addBands_append {img : Image} {nb : Band}
    (h : (img.any (fun bd => bd.name = nb.name)) = false) :
    addBands img nb = img ++ [nb] := by
  unfold addBands
  rw [if_neg (by simp [h])]

theorem add_indices_eval_aux (img : Image) (blue green red nir v1 v2 v3 v4 v5 : ℚ)
    (hB : lookupVal img "BLUE" = some blue)
    (hG : lookupVal img "GREEN" = some green)
    (hR : lookupVal img "RED" = some red)
    (hN : lookupVal img "NIR" = some nir)
    (hfr : ∀ bd ∈ img, ¬ bd.name ∈ (["NDVI", "EVI", "NDMI", "SAVI", "GCI"] : List String))
    (hv1 : v1 = (nir - red) / (nir + red))
    (hv2 : v2 = 2.5 * ((nir - red) / (nir + 6 * red - 7.5 * blue + 1)))
    (hv3 : v3 = (nir - red) / (nir + red))
    (hv4 : v4 = ((nir - red) / (nir + red + 0.5)) * 1.5)
    (hv5 : v5 = nir / green - 1) :
    add_indices img = some (img ++
      [Band.mk "NDVI" v1 true, Band.mk "EVI" v2 true, Band.mk "NDMI" v3 true,
       Band.mk "SAVI" v4 true, Band.mk "GCI" v5 true]) := by
  have hany : ∀ s ∈ (["NDVI", "EVI", "NDMI", "SAVI", "GCI"] : List String),
      (img.any (fun bd => bd.name = s)) = false := by
    intro s hs
    rw [List.any_eq_false]
    intro bd hbd
    simp only [decide_eq_true_eq]
    intro hname
    exact hfr bd hbd (hname ▸ hs)
  have f1 : (img.any (fun bd => bd.name = "NDVI")) = false := hany _ (by simp)
  have f2 : (img.any (fun bd => bd.name = "EVI")) = false := hany _ (by simp)
  have f3 : (img.any (fun bd => bd.name = "NDMI")) = false := hany _ (by simp)
  have f4 : (img.any (fun bd => bd.name = "SAVI")) = false := hany _ (by simp)
  have f5 : (img.any (fun bd => bd.name = "GCI")) = false := hany _ (by simp)
  have e1 : Expr.eval img ndvi_e = some v1 := by
    rw [hv1]; simp [ndvi_e, Expr.eval, hN, hR]
  have e2 : Expr.eval img evi_e = some v2 := by
    rw [hv2]; simp [evi_e, Expr.eval, hB, hR, hN]
  have e3 : Expr.eval img ndmi_e = some v3 := by
    rw [hv3]; simp [ndmi_e, Expr.eval, hN, hR]
  have e4 : Expr.eval img savi_e = some v4 := by
    rw [hv4]; simp [savi_e, Expr.eval, hN, hR]
  have e5 : Expr.eval img gci_e = some v5 := by
    rw [hv5]; simp [gci_e, Expr.eval, hN, hG]
  have hkeep : ∀ (ys : List Band) (e : Expr),
      (∀ n ∈ e.refs, n ∈ (["BLUE", "GREEN", "RED", "NIR"] : List String)) →
      Expr.eval (img ++ ys) e = Expr.eval img e := by
    intro ys e he
    refine eval_congr e ?_
    intro n hn
    have hn4 := he n hn
    simp only [List.mem_cons, List.not_mem_nil, or_false] at hn4
    rcases hn4 with rfl | rfl | rfl | rfl
    · rw [lookupVal_append_left ys hB, hB]
    · rw [lookupVal_append_left ys hG, hG]
    · rw [lookupVal_append_left ys hR, hR]
    · rw [lookupVal_append_left ys hN, hN]
  have E2 : ∀ ys, Expr.eval (img ++ ys) evi_e = some v2 := fun ys => by
    rw [hkeep ys evi_e (by decide)]; exact e2
  have E3 : ∀ ys, Expr.eval (img ++ ys) ndmi_e = some v3 := fun ys => by
    rw [hkeep ys ndmi_e (by decide)]; exact e3
  have E4 : ∀ ys, Expr.eval (img ++ ys) savi_e = some v4 := fun ys => by
    rw [hkeep ys savi_e (by decide)]; exact e4
  have E5 : ∀ ys, Expr.eval (img ++ ys) gci_e = some v5 := fun ys => by
    rw [hkeep ys gci_e (by decide)]; exact e5
  have g2 : ((img ++ [Band.mk "NDVI" v1 true]).any
      (fun bd => bd.name = "EVI")) = false := by
    simp [List.any_append, f2]
  have g3 : ((img ++ [Band.mk "NDVI" v1 true, Band.mk "EVI" v2 true]).any
      (fun bd => bd.name = "NDMI")) = false := by
    simp [List.any_append, f3]
  have g4 : ((img ++ [Band.mk "NDVI" v1 true, Band.mk "EVI" v2 true,
      Band.mk "NDMI" v3 true]).any (fun bd => bd.name = "SAVI")) = false := by
    simp [List.any_append, f4]
  have g5 : ((img ++ [Band.mk "NDVI" v1 true, Band.mk "EVI" v2 true,
      Band.mk "NDMI" v3 true, Band.mk "SAVI" v4 true]).any
      (fun bd => bd.name = "GCI")) = false := by
    simp [List.any_append, f5]
  have a1 : addBands img (Band.mk "NDVI" v1 true) =
      img ++ [Band.mk "NDVI" v1 true] := addBands_append f1
  have a2 : addBands (img ++ [Band.mk "NDVI" v1 true]) (Band.mk "EVI" v2 true) =
      img ++ [Band.mk "NDVI" v1 true, Band.mk "EVI" v2 true] := by
    rw [addBands_append g2, List.append_assoc]
    rfl
  have a3 : addBands (img ++ [Band.mk "NDVI" v1 true, Band.mk "EVI" v2 true])
      (Band.mk "NDMI" v3 true) =
      img ++ [Band.mk "NDVI" v1 true, Band.mk "EVI" v2 true,
        Band.mk "NDMI" v3 true] := by
    rw [addBands_append g3, List.append_assoc]
    rfl
  have a4 : addBands (img ++ [Band.mk "NDVI" v1 true, Band.mk "EVI" v2 true,
      Band.mk "NDMI" v3 true]) (Band.mk "SAVI" v4 true) =
      img ++ [Band.mk "NDVI" v1 true, Band.mk "EVI" v2 true,
        Band.mk "NDMI" v3 true, Band.mk "SAVI" v4 true] := by
    rw [addBands_append g4, List.append_assoc]
    rfl
  have a5 : addBands (img ++ [Band.mk "NDVI" v1 true, Band.mk "EVI" v2 true,
      Band.mk "NDMI" v3 true, Band.mk "SAVI" v4 true]) (Band.mk "GCI" v5 true) =
      img ++ [Band.mk "NDVI" v1 true, Band.mk "EVI" v2 true,
        Band.mk "NDMI" v3 true, Band.mk "SAVI" v4 true,
        Band.mk "GCI" v5 true] := by
    rw [addBands_append g5, List.append_assoc]
    rfl
  unfold add_indices indices
  simp only [List.foldlM_cons, List.foldlM_nil, idxStep, indexBand,
    Option.bind_eq_bind, Option.some_bind, Option.map_some', Option.pure_def,
    e1, E2, E3, E4, E5, a1, a2, a3, a4, a5]

/-- Claim C1 (amended): on an input whose bands include BLUE, GREEN, RED
and NIR and include no band named NDVI, EVI, NDMI, SAVI or GCI,
`add_indices` returns the input image with exactly five additional bands
appended in the order NDVI, EVI, NDMI, SAVI, GCI, each computed by the
source's band-math expression (NDVI as (NIR-RED)/(NIR+RED), EVI as
2.5*((NIR-RED)/(NIR+6*RED-7.5*BLUE+1)), SAVI as
((NIR-RED)/(NIR+RED+0.5))*1.5, GCI as NIR/GREEN-1), converted to float,
and no band of the input is altered.  The amendment restricts the claim to
inputs carrying none of the five index names: on those the overwrite flag
replaces the input's band instead of adding one. -/
theorem add_indices_appends_five_indices (img : Image) (blue green red nir : ℚ)
    (hB : lookupVal img "BLUE" = some blue)
    (hG : lookupVal img "GREEN" = some green)
    (hR : lookupVal img "RED" = some red)
    (hN : lookupVal img "NIR" = some nir)
    (hfr : ∀ bd ∈ img, ¬ bd.name ∈ (["NDVI", "EVI", "NDMI", "SAVI", "GCI"] : List String)) :
    add_indices img = some (img ++
      [Band.mk "NDVI" ((nir - red) / (nir + red)) true,
       Band.mk "EVI" (2.5 * ((nir - red) / (nir + 6 * red - 7.5 * blue + 1))) true,
       Band.mk "NDMI" ((nir - red) / (nir + red)) true,
       Band.mk "SAVI" (((nir - red) / (nir + red + 0.5)) * 1.5) true,
       Band.mk "GCI" (nir / green - 1) true]) :=
  add_indices_eval_aux img blue green red nir _ _ _ _ _ hB hG hR hN hfr
    rfl rfl rfl rfl rfl

/-- Witness for the amended claim C1 at a concrete four-band input. -/
theorem add_indices_appends_five_indices_witness :
    add_indices imgStd = some (imgStd ++
      [Band.mk "NDVI" (((5 : ℚ) - 3) / (5 + 3)) true,
       Band.mk "EVI" (2.5 * (((5 : ℚ) - 3) / (5 + 6 * 3 - 7.5 * 1 + 1))) true,
       Band.mk "NDMI" (((5 : ℚ) - 3) / (5 + 3)) true,
       Band.mk "SAVI" ((((5 : ℚ) - 3) / (5 + 3 + 0.5)) * 1.5) true,
       Band.mk "GCI" ((5 : ℚ) / 2 - 1) true]) :=
  add_indices_appends_five_indices imgStd 1 2 3 5 rfl rfl rfl rfl (by decide)

/-- Claim C2: the source computes the NDMI band with the very same
band-math expression as the NDVI band — the two expression strings are
identical — so on every input (here evaluated on a concrete one) the NDMI
and NDVI bands `add_indices` attaches are equal, contradicting the claim
that the moisture index is a distinct formula. -/
theorem ndmi_band_equals_ndvi_band :
    ndmi_e = ndvi_e ∧
    add_indices imgStd = some imgStdRes ∧
    lookupVal imgStdRes "NDMI" = lookupVal imgStdRes "NDVI" ∧
    lookupVal imgStdRes "NDMI" = some (((5 : ℚ) - 3) / (5 + 3)) :=
  ⟨rfl, rfl, rfl, rfl⟩

/-- A concrete environment: every dataset holds 0 at the fixed pixel and
the slope operator returns 0. -/
def envZero : GEEEnv := GEEEnv.mk (fun _ => 0) (fun _ => 0)

/-- Claim C4: for every environment and input image, `add_dem` attaches a
band named DEM holding exactly the dataset selected by the dem key —
USGS/SRTMGL1_003 for SRTM_30m, CGIAR/SRTM90_V4 for SRTM_90m,
WWF/HydroSHEDS/15CONDEM for HydroSHED_15arc and USGS/GTOPO30 for
GTOPO_30arc — and a call without a dem key defaults to SRTM_30m. -/
theorem add_dem_dataset_selection (env : GEEEnv) (img : Image) :
    add_dem env img = add_dem env img false "SRTM_30m" ∧
    add_dem env img false "SRTM_30m" =
      .ok (addBands img (Band.mk "DEM" (env.elev "USGS/SRTMGL1_003") false)) ∧
    add_dem env img false "SRTM_90m" =
      .ok (addBands img (Band.mk "DEM" (env.elev "CGIAR/SRTM90_V4") false)) ∧
    add_dem env img false "HydroSHED_15arc" =
      .ok (addBands img (Band.mk "DEM" (env.elev "WWF/HydroSHEDS/15CONDEM") false)) ∧
    add_dem env img false "GTOPO_30arc" =
      .ok (addBands img (Band.mk "DEM" (env.elev "USGS/GTOPO30") false)) :=
  ⟨rfl, rfl, rfl, rfl, rfl⟩

/-- Claim C5: on a dem key outside the fixed set, `add_dem` indeed attaches
no band and fails — but not by raising the invalid-DEM exception: the
source builds `Exception("INVALID DEM, see the options in the docstring")`
without `raise`, so execution continues to `ee.Image(dem_path)` and dies
with an UnboundLocalError on `dem_path`. -/
theorem add_dem_invalid_key_unbound_local :
    add_dem envZero [Band.mk "X" 1 false] false "LIDAR" =
      .error (.unboundLocal "dem_path") ∧
    add_dem envZero [Band.mk "X" 1 false] false "LIDAR" ≠
      .error (.raised "INVALID DEM, see the options in the docstring") := by
  refine ⟨rfl, ?_⟩
  intro h
  rw [show add_dem envZero [Band.mk "X" 1 false] false "LIDAR" =
    .error (.unboundLocal "dem_path") from rfl] at h
  simp at h

theorem any_eq_false_iff_lookupBand {img : Image} {s : String} :
    (img.any (fun bd => bd.name = s)) = false ↔ lookupBand img s = none := by
  rw [List.any_eq_false]
  unfold lookupBand
  rw [List.find?_eq_none]

/-- Claim C6 counterexample: on an input that already carries a band named
SLOPE, `add_dem` with the default slope=False returns an image that still
carries a SLOPE band, so the result is not free of SLOPE bands whenever
the slope argument is False. -/
theorem add_dem_preexisting_slope_counterexample :
    add_dem envZero [Band.mk "SLOPE" 3 false] =
      .ok [Band.mk "SLOPE" 3 false, Band.mk "DEM" 0 false] ∧
    (([Band.mk "SLOPE" 3 false, Band.mk "DEM" 0 false] : Image).any
      (fun bd => bd.name = "SLOPE")) = true := by
  exact ⟨rfl, by decide⟩

/-- Claim C6 (amended): for every environment, input and valid dem key,
`add_dem` adds a SLOPE band — the terrain slope in degrees of the selected
DEM — exactly when the slope argument is True; with slope=False it adds
only the DEM band, so the result carries a SLOPE band only if the input
already did.  The amendment allows an input that already carries a SLOPE
band to keep it. -/
theorem add_dem_slope_spec (env : GEEEnv) (img : Image) (dem path : String)
    (hpath : demPath? dem = some path) :
    (add_dem env img true dem = .ok (addBands
      (addBands img (Band.mk "DEM" (env.elev path) false))
      (Band.mk "SLOPE" (env.slopeDeg (env.elev path)) false))) ∧
    (∀ res : Image, add_dem env img true dem = .ok res →
      lookupBand res "SLOPE" =
        some (Band.mk "SLOPE" (env.slopeDeg (env.elev path)) false)) ∧
    (add_dem env img false dem =
      .ok (addBands img (Band.mk "DEM" (env.elev path) false))) ∧
    ((img.any (fun bd => bd.name = "SLOPE")) = false →
      ∀ res : Image, add_dem env img false dem = .ok res →
        (res.any (fun bd => bd.name = "SLOPE")) = false) := by
  have h1 : add_dem env img true dem = .ok (addBands
      (addBands img (Band.mk "DEM" (env.elev path) false))
      (Band.mk "SLOPE" (env.slopeDeg (env.elev path)) false)) := by
    unfold add_dem
    rw [hpath]
    rfl
  have h3 : add_dem env img false dem =
      .ok (addBands img (Band.mk "DEM" (env.elev path) false)) := by
    unfold add_dem
    rw [hpath]
    rfl
  refine ⟨h1, ?_, h3, ?_⟩
  · intro res hres
    rw [h1] at hres
    cases hres
    exact lookupBand_addBands_self
      (addBands img (Band.mk "DEM" (env.elev path) false))
      (Band.mk "SLOPE" (env.slopeDeg (env.elev path)) false)
  · intro hnone res hres
    rw [h3] at hres
    cases hres
    rw [any_eq_false_iff_lookupBand] at hnone ⊢
    have hne : ("SLOPE" : String) ≠ (Band.mk "DEM" (env.elev path) false).name := by
      simp
    rw [lookupBand_addBands_ne img (Band.mk "DEM" (env.elev path) false) hne]
    exact hnone

/-- Witness for the amended claim C6 at a concrete environment and input. -/
theorem add_dem_slope_spec_witness :
    add_dem envZero [] true "SRTM_90m" =
      .ok (addBands (addBands [] (Band.mk "DEM" (envZero.elev "CGIAR/SRTM90_V4") false))
        (Band.mk "SLOPE" (envZero.slopeDeg (envZero.elev "CGIAR/SRTM90_V4")) false)) ∧
    add_dem envZero [] false "SRTM_90m" =
      .ok (addBands [] (Band.mk "DEM" (envZero.elev "CGIAR/SRTM90_V4") false)) :=
  ⟨(add_dem_slope_spec envZero [] "SRTM_90m" "CGIAR/SRTM90_V4" rfl).1,
   (add_dem_slope_spec envZero [] "SRTM_90m" "CGIAR/SRTM90_V4" rfl).2.2.1⟩

/-- Claim C7: the three functions are stateless pure mappings — the
embedding carries no state because the source module reads and writes
none (its only module-level name is the imported `ee` handle, and every
local is function-local) — so two calls with equal arguments yield equal
results, and each result depends on nothing but the arguments. -/
theorem gee_processing_functions_pure (i j : Image) (h : i = j) :
    rename_bands i = rename_bands j ∧
    add_indices i = add_indices j ∧
    ∀ (env : GEEEnv) (s : Bool) (d : String), add_dem env i s d = add_dem env j s d := by
  subst h
  exact ⟨rfl, rfl, fun _ _ _ => rfl⟩

/-- Witness for claim C7 at a concrete input. -/
theorem gee_processing_functions_pure_witness :
    rename_bands imgStd = rename_bands imgStd ∧
    add_dem envZero imgStd false "SRTM_30m" = add_dem envZero imgStd false "SRTM_30m" :=
  ⟨(gee_processing_functions_pure imgStd imgStd rfl).1,
   (gee_processing_functions_pure imgStd imgStd rfl).2.2 envZero false "SRTM_30m"⟩

/-- Claim C8 counterexample: `add_dem` composes a terrain-slope request
(and `add_indices` a float-conversion request) which is none of the four
request kinds — band subsetting, renaming, expression evaluation, band
addition — that the claim says are the only ones issued. -/
theorem requests_beyond_claimed_kinds_counterexample :
    Op.terrainSlope ∈ addDemOps true "SRTM_30m" ∧
    claimedRequestKinds Op.terrainSlope = false ∧
    Op.toFloat ∈ addIndicesOps ∧
    claimedRequestKinds Op.toFloat = false ∧
    Op.loadImage "USGS/SRTMGL1_003" ∈ addDemOps false "SRTM_30m" ∧
    claimedRequestKinds (Op.loadImage "USGS/SRTMGL1_003") = false := by
  refine ⟨?_, rfl, ?_, rfl, ?_, rfl⟩ <;> decide

/-- Claim C8 (amended): no function materializes pixel data locally or
mutates the input handle (the embedding is a pure function from handles to
handles): each function only composes band-subset, rename, expression,
float-conversion, dataset-load, terrain-slope and band-addition requests,
and never a pixel-materializing request. -/
theorem requests_stay_remote (s : Bool) (d : String) :
    rename_bandsOps.all codeRequestKinds = true ∧
    addIndicesOps.all codeRequestKinds = true ∧
    (addDemOps s d).all codeRequestKinds = true ∧
    codeRequestKinds Op.getPixels = false ∧
    Op.getPixels ∉ rename_bandsOps ∧
    Op.getPixels ∉ addIndicesOps ∧
    Op.getPixels ∉ addDemOps s d := by
  refine ⟨by decide, by decide, ?_, rfl, by decide, by decide, ?_⟩
  · unfold addDemOps
    cases hp : demPath? d with
    | none => rfl
    | some path => cases s <;> simp [codeRequestKinds]
  · unfold addDemOps
    cases hp : demPath? d with
    | none => simp
    | some path => cases s <;> simp

/-- Claim C9: because every band is added with the overwrite flag set,
`add_indices` is idempotent — applying it to its own result returns that
result unchanged — and so is `add_dem` at fixed slope and dem arguments. -/
theorem add_indices_add_dem_idempotent :
    (∀ img res : Image, add_indices img = some res → add_indices res = some res) ∧
    (∀ (env : GEEEnv) (img : Image) (s : Bool) (d : String) (res : Image),
      add_dem env img s d = .ok res → add_dem env res s d = .ok res) := by
  constructor
  · intro img res h
    unfold add_indices at h ⊢
    exact foldlM_idxStep_idem indices img res (by decide) (by decide) h
  · intro env img s d res h
    cases hp : demPath? d with
    | none =>
      unfold add_dem at h
      rw [hp] at h
      simp at h
    | some path =>
      unfold add_dem at h ⊢
      rw [hp] at h ⊢
      cases s
      · simp only [Bool.false_eq_true, if_false] at h ⊢
        cases h
        rw [addBands_eq_self (allEq_addBands_self img (Band.mk "DEM" (env.elev path) false))]
      · simp only [if_true] at h ⊢
        cases h
        have hD : AllEq
            (addBands (addBands img (Band.mk "DEM" (env.elev path) false))
              (Band.mk "SLOPE" (env.slopeDeg (env.elev path)) false))
            "DEM" (Band.mk "DEM" (env.elev path) false) := by
          refine allEq_addBands_ne _ (by simp) ?_
          exact allEq_addBands_self img (Band.mk "DEM" (env.elev path) false)
        have h1 : addBands
            (addBands (addBands img (Band.mk "DEM" (env.elev path) false))
              (Band.mk "SLOPE" (env.slopeDeg (env.elev path)) false))
            (Band.mk "DEM" (env.elev path) false) =
            addBands (addBands img (Band.mk "DEM" (env.elev path) false))
              (Band.mk "SLOPE" (env.slopeDeg (env.elev path)) false) :=
          addBands_eq_self hD
        rw [h1]
        rw [addBands_eq_self (allEq_addBands_self
          (addBands img (Band.mk "DEM" (env.elev path) false))
          (Band.mk "SLOPE" (env.slopeDeg (env.elev path)) false))]

/-- Witness for claim C9: re-running `add_indices` on its concrete result
and `add_dem` on its concrete result returns them unchanged. -/
theorem add_indices_add_dem_idempotent_witness :
    add_indices imgStdRes = some imgStdRes ∧
    add_dem envZero [Band.mk "DEM" 0 false] false "SRTM_30m" =
      .ok [Band.mk "DEM" 0 false] :=
  ⟨add_indices_add_dem_idempotent.1 imgStd imgStdRes rfl,
   add_indices_add_dem_idempotent.2 envZero [] false "SRTM_30m"
     [Band.mk "DEM" 0 false] rfl⟩

/-- A Landsat-style input carrying the five selected bands plus two
further bands (SR_B5, SR_B7). -/
def imgLandsat : Image :=
  [Band.mk "SR_B1" 1 false, Band.mk "SR_B2" 2 false, Band.mk "SR_B3" 3 false,
   Band.mk "SR_B4" 5 false, Band.mk "SR_B5" 7 false, Band.mk "SR_B7" 8 false,
   Band.mk "ST_B6" 9 false]

/-- Witness for claim C3 at a concrete seven-band input. -/
theorem rename_bands_selects_and_renames_witness :
    rename_bands imgLandsat = (select ori_names imgLandsat).bind (rename new_names) ∧
    rename_bands imgLandsat = some
      [Band.mk "BLUE" (Band.mk "SR_B1" 1 false).value (Band.mk "SR_B1" 1 false).float,
       Band.mk "GREEN" (Band.mk "SR_B2" 2 false).value (Band.mk "SR_B2" 2 false).float,
       Band.mk "RED" (Band.mk "SR_B3" 3 false).value (Band.mk "SR_B3" 3 false).float,
       Band.mk "NIR" (Band.mk "SR_B4" 5 false).value (Band.mk "SR_B4" 5 false).float,
       Band.mk "TEMPERATURE" (Band.mk "ST_B6" 9 false).value
         (Band.mk "ST_B6" 9 false).float] :=
  ⟨(rename_bands_selects_and_renames imgLandsat
      (Band.mk "SR_B1" 1 false) (Band.mk "SR_B2" 2 false) (Band.mk "SR_B3" 3 false)
      (Band.mk "SR_B4" 5 false) (Band.mk "ST_B6" 9 false)
      rfl rfl rfl rfl rfl).1 imgLandsat,
   (rename_bands_selects_and_renames imgLandsat
      (Band.mk "SR_B1" 1 false) (Band.mk "SR_B2" 2 false) (Band.mk "SR_B3" 3 false)
      (Band.mk "SR_B4" 5 false) (Band.mk "ST_B6" 9 false)
      rfl rfl rfl rfl rfl).2⟩

/-- Witness for claim C10: on the seven-band input the output names are
exactly the five new names (SR_B5 and SR_B7 are dropped), and on an input
lacking ST_B6 the band selection fails. -/
theorem rename_bands_drops_other_bands_witness :
    (∃ res : Image, rename_bands imgLandsat = some res ∧
      res.map Band.name = new_names ∧ res.length = 5) ∧
    rename_bands imgStd = none :=
  ⟨(rename_bands_drops_other_bands imgLandsat
      (Band.mk "SR_B1" 1 false) (Band.mk "SR_B2" 2 false) (Band.mk "SR_B3" 3 false)
      (Band.mk "SR_B4" 5 false) (Band.mk "ST_B6" 9 false)
      rfl rfl rfl rfl rfl).1,
   (rename_bands_drops_other_bands imgLandsat
      (Band.mk "SR_B1" 1 false) (Band.mk "SR_B2" 2 false) (Band.mk "SR_B3" 3 false)
      (Band.mk "SR_B4" 5 false) (Band.mk "ST_B6" 9 false)
      rfl rfl rfl rfl rfl).2 imgStd "ST_B6" (by decide) rfl⟩
